import Mathlib

/-!
Shallow embedding of the website patrol system core (src/core/variables.py and
src/core/patrol.py): the variable store with auto typing and placeholder
substitution, schedule calculation, check execution, and the patrol engine.
Time instants are modelled as whole seconds since the Unix epoch; external
collaborators (HTML selection, regular expression search, screenshots, file
downloads, the filesystem and the HTTP layer) are oracle parameters.
-/

namespace Patrol

/-- Python values the monitor stores in its VariableManager. The value universe
of the embedding is strings, integers and booleans, which is what the engine
writes; Python float and None values are outside the model. -/
inductive PyValue where
  | str (s : String)
  | int (n : Int)
  | bool (b : Bool)
  deriving Repr, DecidableEq

/-- Python str(value) on the modelled values. -/
def pyStr : PyValue → String
  | .str s => s
  | .int n => toString n
  | .bool b => if b then "True" else "False"

/-- Python substring test `needle in hay` on char lists: does needle occur as a
prefix of hay. -/
def isSubAt : List Char → List Char → Bool
  | [], _ => true
  | _ :: _, [] => false
  | a :: as, b :: bs => a = b && isSubAt as bs

/-- Python substring test `needle in hay` on char lists: does needle occur as a
contiguous sublist of hay. -/
def containsSub (needle : List Char) : List Char → Bool
  | [] => needle.isEmpty
  | c :: rest => isSubAt needle (c :: rest) || containsSub needle rest

/-- Python string membership `needle in hay`. -/
def pyIn (needle hay : String) : Bool := containsSub needle.data hay.data

/-- Python str.startswith(pre). -/
def pyStartsWith (s pre : String) : Bool := isSubAt pre.data s.data

/-- Image filename suffixes recognised by set_variable (variables.py line 25). -/
def imageExts : List String := [".png", ".jpg", ".jpeg", ".gif", ".bmp"]

/-- Python isinstance(value, str) and value.endswith(imageExts). -/
def strEndsWithImageExt : PyValue → Bool
  | .str s => imageExts.any (fun e => s.endsWith e)
  | _ => false

/-- Python isinstance(value, str) and Path(value).exists(); the filesystem is
an oracle. -/
def strExistingPath (fsExists : String → Bool) : PyValue → Bool
  | .str s => fsExists s
  | _ => false

/-- Python isinstance(value, (int, float)). In Python bool is a subclass of
int, so booleans satisfy this check as well. -/
def pyIsIntFloat : PyValue → Bool
  | .int _ => true
  | .bool _ => true
  | _ => false

/-- Python isinstance(value, bool). -/
def pyIsBool : PyValue → Bool
  | .bool _ => true
  | _ => false

/-- Auto type inference of VariableManager.set_variable (variables.py lines
24 to 34), translated branch by branch. The branch returning "boolean" is
unreachable because pyIsIntFloat already accepts booleans, exactly as in the
Python source where isinstance(True, (int, float)) is true. -/
def inferAutoType (fsExists : String → Bool) (value : PyValue) : String :=
  if strEndsWithImageExt value then "image"
  else if strExistingPath fsExists value then "file"
  else if pyIsIntFloat value then "number"
  else if pyIsBool value then "boolean"
  else "text"

/-- One stored variable: value plus the metadata kept by VariableManager
(type and description; creation timestamps are outside the model). -/
structure VarEntry where
  value : PyValue
  vtype : String
  description : String
  deriving Repr, DecidableEq

/-- The VariableManager state: its _variables and _variable_metadata dicts,
modelled as an association list where the most recent binding comes first. -/
abbrev VarStore := List (String × VarEntry)

/-- Dict lookup: first binding for the name, if any. -/
def lookupStore (store : VarStore) (name : String) : Option VarEntry :=
  match store with
  | [] => none
  | (n, e) :: rest => if n = name then some e else lookupStore rest name

/-- VariableManager.set_variable (variables.py lines 20 to 47): resolve the
"auto" type, then overwrite the binding. -/
def set_variable (fsExists : String → Bool) (store : VarStore) (name : String)
    (value : PyValue) (variable_type : String) (description : String) : VarStore :=
  let t := if variable_type = "auto" then inferAutoType fsExists value else variable_type
  (name, ⟨value, t, description⟩) :: store

/-- VariableManager.get_variable (variables.py lines 49 to 51) with the default
None, returning the bare value. -/
def get_variable (store : VarStore) (name : String) : Option PyValue :=
  (lookupStore store name).map (fun e => e.value)

/-- Scan for the first right brace: returns the characters before it and the
characters after it. Models the regex piece that a placeholder name is a
nonempty run of characters other than a right brace, ended by one. -/
def findClose : List Char → Option (List Char × List Char)
  | [] => none
  | c :: rest =>
    if c = '}' then some ([], rest)
    else (findClose rest).map (fun p => (c :: p.1, p.2))

theorem findClose_length {cs name rest : List Char}
    (h : findClose cs = some (name, rest)) : cs.length = name.length + 1 + rest.length := by
  induction cs generalizing name rest with
  | nil => simp [findClose] at h
  | cons c cs ih =>
    rw [findClose] at h
    by_cases hc : c = '}'
    · rw [if_pos hc] at h
      have hp := Option.some.inj h
      have h1 := congrArg Prod.fst hp
      have h2 := congrArg Prod.snd hp
      simp only at h1 h2
      subst h1; subst h2; simp only [List.length_cons, List.length_nil]; omega
    · rw [if_neg hc] at h
      cases hfc : findClose cs with
      | none => rw [hfc] at h; simp at h
      | some p =>
        rw [hfc] at h
        have hp := Option.some.inj (show some ((c :: p.1 : List Char), p.2) = some (name, rest) from h)
        have h1 := congrArg Prod.fst hp
        have h2 := congrArg Prod.snd hp
        simp only at h1 h2
        subst h1; subst h2
        have hrec := ih (show findClose cs = some (p.1, p.2) by rw [hfc])
        simp only [List.length_cons]
        omega

/-- The substitution pass of VariableManager.substitute_variables (variables.py
lines 182 to 206): re.sub over the pattern of a dollar sign, a left brace, a
nonempty run of characters other than a right brace, and a right brace.
A matched name bound in the store is replaced by str(value); an unbound one is
kept verbatim and scanning resumes after the match, never inside a
replacement, so the pass is single and non recursive. -/
def substituteChars (store : VarStore) : List Char → List Char
  | [] => []
  | '$' :: '{' :: rest =>
    match h : findClose rest with
    | some (name, rest') =>
      if name.isEmpty then '$' :: substituteChars store ('{' :: rest)
      else
        match get_variable store (String.mk name) with
        | some v => (pyStr v).data ++ substituteChars store rest'
        | none => '$' :: '{' :: (name ++ '}' :: substituteChars store rest')
    | none => '$' :: '{' :: rest
  | c :: rest => c :: substituteChars store rest
  termination_by cs => cs.length
  decreasing_by
  · simp
  · have := findClose_length h
    simp
    omega
  · simp

/-- VariableManager.substitute_variables on strings. -/
def substitute_variables (store : VarStore) (text : String) : String :=
  String.mk (substituteChars store text.data)

/-- Names of every placeholder the substitution pass matches, in order. The
match structure of the scan does not depend on the store. -/
def placeholderNames : List Char → List String
  | [] => []
  | '$' :: '{' :: rest =>
    match h : findClose rest with
    | some (name, rest') =>
      if name.isEmpty then placeholderNames ('{' :: rest)
      else String.mk name :: placeholderNames rest'
    | none => []
  | _ :: rest => placeholderNames rest
  termination_by cs => cs.length
  decreasing_by
  · simp
  · have := findClose_length h
    simp
    omega
  · simp

/-- Parsed "HH:MM" clock time, the model of start_time and of the entries of
multiple_times. A well formed time has hour below 24 and minute below 60. -/
structure ClockTime where
  hour : Nat
  minute : Nat
  deriving Repr, DecidableEq, Inhabited

/-- PatrolFrequency (patrol.py lines 23 to 29). -/
inductive PatrolFrequency where
  | daily
  | multiple_daily
  | weekly
  | monthly
  | custom
  deriving Repr, DecidableEq

/-- PatrolType (patrol.py lines 32 to 38). -/
inductive PatrolType where
  | content_check
  | visual_check
  | download_check
  | form_check
  | api_check
  deriving Repr, DecidableEq

/-- PatrolCheck (patrol.py lines 41 to 51). Optional strings model the
Optional[str] fields; the repository builds them with `text.strip() or None`
(gui/dialogs/patrol_config.py lines 253 to 257), so a present value is a
nonempty string, which some theorems take as a hypothesis. -/
structure PatrolCheck where
  name : String
  type : PatrolType
  target : String
  expected_value : Option String
  tolerance : Option String
  description : String
  enabled : Bool
  associated_url : Option String
  deriving Repr, DecidableEq

/-- PatrolTask (patrol.py lines 54 to 90). created_at, custom_template and
notification_recipients are omitted; last_run and next_run are instants in the
seconds model. -/
structure PatrolTask where
  name : String
  description : String
  websites : List String
  checks : List PatrolCheck
  frequency : PatrolFrequency
  custom_schedule : Option String
  start_time : ClockTime
  multiple_times : List ClockTime
  auth_config : Option (List (String × String))
  generate_report : Bool
  report_format : String
  notify_on_failure : Bool
  notify_on_success : Bool
  timeout : Nat
  retry_count : Nat
  enabled : Bool
  last_run : Option Nat
  next_run : Option Nat
  run_count : Nat
  deriving Repr, DecidableEq

/-- Python truthiness of an optional string: None and the empty string are
falsy, everything else truthy. -/
def truthy : Option String → Bool
  | none => false
  | some s => !s.isEmpty

/-- Seconds into the day named by a clock time. -/
def secondsOfDay (t : ClockTime) : Nat := t.hour * 3600 + t.minute * 60

/-- now.replace(hour=h, minute=m, second=0, microsecond=0) in the seconds
model: keep the day of now, set the time of day. -/
def replaceTime (now : Nat) (t : ClockTime) : Nat :=
  now / 86400 * 86400 + secondsOfDay t

/-- Python datetime.weekday(): Monday is 0. Day zero of the epoch was a
Thursday, weekday number 3. -/
def weekdayOf (now : Nat) : Nat := (now / 86400 + 3) % 7

/-- Comparison used to model Python sorted on the zero padded "HH:MM" strings
of multiple_times: lexicographic string order on such strings coincides with
order by seconds of day. -/
def timeLe (a b : ClockTime) : Prop := secondsOfDay a ≤ secondsOfDay b

instance : DecidableRel timeLe :=
  fun a b => inferInstanceAs (Decidable (secondsOfDay a ≤ secondsOfDay b))

instance : IsTotal ClockTime timeLe := ⟨fun a b => Nat.le_total _ _⟩

instance : IsTrans ClockTime timeLe := ⟨fun _ _ _ => Nat.le_trans⟩

/-- Python sorted(task.multiple_times), modelled by insertion sort, which
produces the same nondecreasing stable ordering. -/
def sortedTimes (ts : List ClockTime) : List ClockTime := List.insertionSort timeLe ts

/-- The daily scheduling rule (patrol.py lines 679 to 686), shared verbatim by
the fallback branches of multiple_daily, custom and the default case. -/
def dailyNext (start : ClockTime) (now : Nat) : Nat :=
  let next_run := replaceTime now start
  if next_run ≤ now then next_run + 86400 else next_run

/-- The multiple daily scheduling rule (patrol.py lines 688 to 713): walk the
sorted times and take the first one strictly after now today; with no time
left today, take the earliest sorted time tomorrow; with no times at all,
fall back to the daily rule. -/
def multipleDailyNext (times : List ClockTime) (start : ClockTime) (now : Nat) : Nat :=
  if times.isEmpty then dailyNext start now
  else
    let today := now / 86400 * 86400
    match (sortedTimes times).find? (fun t => today + secondsOfDay t > now) with
    | some t => today + secondsOfDay t
    | none => today + 86400 + secondsOfDay (sortedTimes times).headI

/-- PatrolEngine.calculate_next_run_time (patrol.py lines 675 to 748). now is
passed explicitly instead of read from the wall clock. firstOfNextMonth is a
calendar oracle standing for the monthly branch, whose month arithmetic the
seconds model does not encode; no claim touches it. -/
def calculate_next_run_time (firstOfNextMonth : Nat → ClockTime → Nat)
    (task : PatrolTask) (now : Nat) : Nat :=
  if task.frequency = .daily then dailyNext task.start_time now
  else if task.frequency = .multiple_daily then
    multipleDailyNext task.multiple_times task.start_time now
  else if task.frequency = .weekly then
    let days_ahead : Int := 0 - weekdayOf now
    let days_ahead := if days_ahead ≤ 0 then days_ahead + 7 else days_ahead
    replaceTime (now + days_ahead.toNat * 86400) task.start_time
  else if task.frequency = .monthly then firstOfNextMonth now task.start_time
  else if task.frequency = .custom ∧ truthy task.custom_schedule then dailyNext task.start_time now
  else dailyNext task.start_time now

/-- The dict FileDownloader.get_download_info returns, reduced to the keys the
check executor reads: exists, filename and size (absent keys are none). -/
structure FileInfo where
  fileExists : Bool
  filename : Option String
  size : Option Nat
  deriving Repr, DecidableEq

/-- External collaborators of the check executor and the engine, modelled as
oracles: HTML selection (BeautifulSoup css, lxml xpath, as the list of element
texts), regular expression search (false also covers a bad pattern, which the
source downgrades to a failed validation), JSON dotted path extraction (none
covers parse and key errors), the screenshot service, the downloader, and the
strftime renderings of the wall clock. -/
structure Oracles where
  css : String → String → List String
  xpath : String → String → List String
  regexSearch : String → String → Bool
  jsonExtract : String → String → Option String
  captureScreenshot : String → String → Option String
  captureElementScreenshot : String → String → String → Option String
  captureFullPageScreenshot : String → String → Option String
  downloadFile : String → String → Option String
  getDownloadInfo : String → FileInfo
  nowStamp : String
  responseTimeStr : String → String
  fmtHMS : Nat → String
  fmtLong : Nat → String
  fmtDate : Nat → String
  fmtDateTime : Nat → String

/-- The check_result dict built by _execute_patrol_check (patrol.py lines 378
to 385 plus the keys the branches add). -/
structure CheckRes where
  success : Bool
  value : Option PyValue
  extracted_value : Option String
  message : String
  validation_success : Option Bool
  screenshot_path : Option String
  file_info : Option FileInfo
  deriving Repr, DecidableEq

/-- One call to VariableManager.set_variable recorded by the engine: name,
value, declared type and description. -/
structure VarWrite where
  name : String
  value : PyValue
  vtype : String
  description : String
  deriving Repr, DecidableEq

/-- Python str.replace with a single character pattern, which rewrites every
occurrence of that character. -/
def pyReplaceChar (pat rep : Char) (s : String) : String :=
  String.mk (s.data.map (fun c => if c = pat then rep else c))

/-- The safe name transformation the engine applies to task and check names:
two chained str.replace calls that turn spaces and hyphens into underscores
and keep every other character. -/
def pySafeName (s : String) : String := pyReplaceChar '-' '_' (pyReplaceChar ' ' '_' s)

/-- The safe url transformation (patrol.py line 313): strip the scheme, then
turn slashes, colons and dots into underscores. -/
def safeUrl (url : String) : String :=
  ((((url.replace "https://" "").replace "http://" "").replace "/" "_").replace ":" "_").replace "." "_"

/-- Validation of an extracted value against the expected value under the
tolerance mode (patrol.py lines 438 to 448): exact is string equality, regex
is re.search with the expected value as the pattern, anything else, including
an absent tolerance, is substring containment. -/
def validateTolerance (o : Oracles) (tolerance : Option String)
    (expected extracted : String) : Bool :=
  if tolerance = some "exact" then extracted == expected
  else if tolerance = some "regex" then o.regexSearch expected extracted
  else pyIn expected extracted

/-- The empty check_result every branch starts from. -/
def emptyCheckRes : CheckRes :=
  { success := false, value := none, extracted_value := none, message := ""
    validation_success := none, screenshot_path := none, file_info := none }

/-- The CONTENT_CHECK branch of _execute_patrol_check (patrol.py lines 388 to
460): extract the first match of the target (xpath when the target starts with
a slash, css otherwise), then validate when a truthy expected value is
present; with no extraction and a truthy expected value, fall back to a raw
substring search over the whole body. -/
def contentCheckRes (o : Oracles) (check : PatrolCheck) (content : String) : CheckRes :=
  let extractedPair : Option String × CheckRes :=
    if pyStartsWith check.target "//" || pyStartsWith check.target "/" then
      match o.xpath check.target content with
      | [] => (none, { emptyCheckRes with message := "XPath未找到匹配元素" })
      | e :: es =>
        (some e, { emptyCheckRes with
                   extracted_value := some e
                   value := some (.int (es.length + 1))
                   message := "XPath找到 " ++ toString (es.length + 1)
                     ++ " 个元素，提取值: " ++ e.take 100 })
    else
      match o.css check.target content with
      | [] => (none, { emptyCheckRes with
                   message := "CSS选择器未找到匹配元素: " ++ check.target })
      | e :: es =>
        (some e, { emptyCheckRes with
                   extracted_value := some e
                   value := some (.int (es.length + 1))
                   message := "CSS选择器找到 " ++ toString (es.length + 1)
                     ++ " 个元素，提取值: " ++ e.take 100 })
  match extractedPair with
  | (some ev, cr) =>
    let cr := { cr with success := true }
    if truthy check.expected_value then
      let e := check.expected_value.getD ""
      let vres := validateTolerance o check.tolerance e ev
      { cr with
        validation_success := some vres
        success := vres
        message := cr.message ++ ", 验证: " ++ (if vres then "通过" else "失败") }
    else cr
  | (none, cr) =>
    if truthy check.expected_value then
      let e := check.expected_value.getD ""
      let found := pyIn e content
      { cr with
        success := found
        value := some (.bool found)
        message := "文本搜索: " ++ (if found then "找到" else "未找到") ++ " " ++ e }
    else cr

/-- The API_CHECK branch (patrol.py lines 462 to 487): success is status 200;
with a truthy target and a json content type, extract the dotted path value. -/
def apiCheckRes (o : Oracles) (check : PatrolCheck) (content : String)
    (status : Nat) (content_type : String) : CheckRes :=
  let cr := { emptyCheckRes with
              success := status == 200
              value := some (.int (status : Int))
              message := "API状态码: " ++ toString status }
  if !check.target.isEmpty && !content_type.isEmpty && pyIn "json" content_type then
    match o.jsonExtract check.target content with
    | some s => { cr with
                  extracted_value := some s
                  message := cr.message ++ ", 提取值: " ++ s.take 100 }
    | none => { cr with message := cr.message ++ ", JSON提取失败" }
  else cr

/-- The capture mode selection of the VISUAL_CHECK branch (patrol.py lines
496 to 514): element capture for a truthy target outside the mode tokens, full
page capture for a target naming full or the Chinese full page token,
viewport capture otherwise. Returns the optional path and the message. -/
def visualShot (o : Oracles) (check : PatrolCheck) (task : PatrolTask)
    (url : String) : Option String × String :=
  let website_name := task.name ++ "_" ++ check.name ++ "_" ++ safeUrl url
  let modeTokens : List String := ["full", "fullpage", "全页", "viewport", "视口"]
  if !check.target.isEmpty && !(modeTokens.contains check.target.toLower) then
    let p := o.captureElementScreenshot url website_name check.target
    (p, "元素截图 (" ++ check.target ++ "): " ++ (if p.isSome then "成功" else "失败"))
  else if !check.target.isEmpty
      && (pyIn "full" check.target.toLower || pyIn "全页" check.target) then
    let p := o.captureFullPageScreenshot url website_name
    (p, "全页截图: " ++ (if p.isSome then "成功" else "失败"))
  else
    let p := o.captureScreenshot url website_name
    (p, "页面截图: " ++ (if p.isSome then "成功" else "失败"))

/-- The VISUAL_CHECK branch (patrol.py lines 489 to 535): take the screenshot
for the selected mode, succeed when a path comes back, and write the visual
variable. -/
def visualCheckRes (o : Oracles) (check : PatrolCheck) (task : PatrolTask)
    (url : String) : CheckRes × List VarWrite :=
  match visualShot o check task url with
  | (some path, msg) =>
    ({ emptyCheckRes with
       success := true
       value := some (.str path)
       message := msg
       screenshot_path := some path },
     [⟨"visual_" ++ pySafeName check.name ++ "_" ++ pySafeName task.name,
       .str path, "image", "视觉检查 " ++ check.name ++ " 截图 (任务: " ++ task.name ++ ")"⟩])
  | (none, msg) => ({ emptyCheckRes with message := msg ++ " - 截图失败" }, [])

/-- The DOWNLOAD_CHECK branch (patrol.py lines 537 to 595): download the
target, attach the file info, and write path, size and name variables; size
and name are written only when the dict value is truthy. -/
def downloadCheckRes (o : Oracles) (check : PatrolCheck) (task : PatrolTask)
    (url : String) : CheckRes × List VarWrite :=
  let website_name := task.name ++ "_" ++ check.name ++ "_" ++ safeUrl url
  match o.downloadFile check.target website_name with
  | some download_path =>
    let fi := o.getDownloadInfo download_path
    let msg := if fi.fileExists then
        "文件下载成功: " ++ fi.filename.getD "" ++ " ("
          ++ toString (fi.size.getD 0) ++ " 字节)"
      else "文件下载成功但无法获取文件信息"
    let sc := pySafeName check.name
    let st := pySafeName task.name
    let ws : List VarWrite :=
      [⟨"download_path_" ++ sc ++ "_" ++ st, .str download_path, "file",
        "下载检查 " ++ check.name ++ " 文件路径 (任务: " ++ task.name ++ ")"⟩]
      ++ (match fi.size with
          | some n =>
            if n ≠ 0 then
              [⟨"download_size_" ++ sc ++ "_" ++ st, .str (toString n ++ " 字节"), "text",
                "下载检查 " ++ check.name ++ " 文件大小 (任务: " ++ task.name ++ ")"⟩]
            else []
          | none => [])
      ++ (match fi.filename with
          | some fn =>
            if fn ≠ "" then
              [⟨"download_name_" ++ sc ++ "_" ++ st, .str fn, "text",
                "下载检查 " ++ check.name ++ " 文件名 (任务: " ++ task.name ++ ")"⟩]
            else []
          | none => [])
    ({ emptyCheckRes with
       success := true
       value := some (.str download_path)
       message := msg
       file_info := some fi }, ws)
  | none => ({ emptyCheckRes with message := "文件下载失败" }, [])

/-- PatrolEngine._execute_patrol_check (patrol.py lines 374 to 673): run the
branch for the check type, then record the status and timestamp variables and
the type specific derived variables. The returned list is the sequence of
set_variable calls in source order (branch internal writes first, as in the
source). -/
def execute_patrol_check (o : Oracles) (check : PatrolCheck) (task : PatrolTask)
    (url : String) (content : String) (status : Nat) (content_type : String) :
    CheckRes × List VarWrite :=
  let sc := pySafeName check.name
  let st := pySafeName task.name
  let branch : CheckRes × List VarWrite :=
    match check.type with
    | .content_check => (contentCheckRes o check content, [])
    | .api_check => (apiCheckRes o check content status content_type, [])
    | .visual_check => visualCheckRes o check task url
    | .download_check => downloadCheckRes o check task url
    | .form_check => ({ emptyCheckRes with message := "表单检查功能待实现" }, [])
  let cr := branch.1
  let statusWrite : VarWrite :=
    ⟨"status_" ++ sc ++ "_" ++ st, .str (if cr.success then "成功" else "失败"), "text",
      "检查项 " ++ check.name ++ " 状态 (任务: " ++ task.name ++ ")"⟩
  let timestampWrite : VarWrite :=
    ⟨"timestamp_" ++ sc ++ "_" ++ st, .str o.nowStamp, "text",
      "检查项 " ++ check.name ++ " 执行时间 (任务: " ++ task.name ++ ")"⟩
  let typeWrites : List VarWrite :=
    match check.type with
    | .content_check =>
      match cr.extracted_value with
      | some ev =>
        if ev ≠ "" then
          ⟨"extracted_" ++ sc ++ "_" ++ st, .str ev, "text",
            "从检查项 " ++ check.name ++ " 提取的内容 (任务: " ++ task.name ++ ")"⟩
          :: (match cr.validation_success with
              | some vs =>
                [⟨"validation_" ++ sc ++ "_" ++ st, .str (if vs then "通过" else "失败"),
                  "text", "检查项 " ++ check.name ++ " 验证结果 (任务: " ++ task.name ++ ")"⟩]
              | none => [])
        else []
      | none => []
    | .api_check =>
      ⟨"api_status_" ++ sc ++ "_" ++ st,
        .str (match cr.value with | some v => pyStr v | none => ""), "number",
        "API检查 " ++ check.name ++ " 状态码 (任务: " ++ task.name ++ ")"⟩
      :: (match cr.extracted_value with
          | some ev =>
            if ev ≠ "" then
              [⟨"api_response_" ++ sc ++ "_" ++ st, .str ev, "text",
                "API检查 " ++ check.name ++ " 响应内容 (任务: " ++ task.name ++ ")"⟩]
            else []
          | none => [])
    | _ => []
  (cr, branch.2 ++ [statusWrite, timestampWrite] ++ typeWrites)

/-- The HTTP outcome for one website: a response with status, body and content
type, a timeout, or any other request error. -/
inductive HttpOutcome where
  | ok (status : Nat) (content : String) (content_type : String)
  | timeout
  | failure (msg : String)
  deriving Repr, DecidableEq

/-- The PatrolResult dataclass (patrol.py lines 93 to 116), without the float
response_time, which the seconds model does not carry. -/
structure PatrolResultM where
  task_name : String
  website_url : String
  success : Bool
  status_code : Option Nat
  content_size : Option Nat
  check_results : List (String × CheckRes)
  error_message : Option String
  screenshot_path : Option String
  deriving Repr, DecidableEq

/-- The check loop of _patrol_website (patrol.py lines 295 to 308): a check
runs when it is enabled and its associated_url is falsy or equals the current
website; a failing check clears the aggregate success flag. Returns the
check_results entries, the variable writes and the final success flag. -/
def runChecks (o : Oracles) (task : PatrolTask) (url : String) (content : String)
    (status : Nat) (content_type : String) :
    List PatrolCheck → Bool → List (String × CheckRes) × List VarWrite × Bool
  | [], success => ([], [], success)
  | check :: rest, success =>
    if check.enabled then
      if truthy check.associated_url && (check.associated_url != some url) then
        runChecks o task url content status content_type rest success
      else
        let (cr, ws) := execute_patrol_check o check task url content status content_type
        let (crs, ws2, s2) :=
          runChecks o task url content status content_type rest (success && cr.success)
        ((check.name, cr) :: crs, ws ++ ws2, s2)
    else runChecks o task url content status content_type rest success

/-- PatrolEngine._patrol_website (patrol.py lines 247 to 372). The HTTP layer
is the env oracle; authentication only shapes the request headers and cookies,
which env absorbs. On a timeout or another request error the result keeps its
initial false success and records the error message; no variables are written
since the exception aborts the with block before the writes. -/
def patrol_website (o : Oracles) (env : String → HttpOutcome) (task : PatrolTask)
    (url : String) : PatrolResultM × List VarWrite :=
  let base : PatrolResultM :=
    { task_name := task.name, website_url := url, success := false, status_code := none
      content_size := none, check_results := [], error_message := none
      screenshot_path := none }
  match env url with
  | .timeout =>
    ({ base with error_message := some ("请求超时 (" ++ toString task.timeout ++ "秒)") }, [])
  | .failure msg => ({ base with error_message := some msg }, [])
  | .ok status content content_type =>
    let statusSuccess := [200, 201, 202].contains status
    let (crs, checkWrites, success) :=
      runChecks o task url content status content_type task.checks statusSuccess
    let su := safeUrl url
    let st := pySafeName task.name
    let shotPair : Option String × List VarWrite :=
      if task.checks.any (fun c => c.type == .visual_check) || task.generate_report then
        match o.captureScreenshot url (task.name ++ "_" ++ su) with
        | some p =>
          (some p, [⟨"screenshot_" ++ su ++ "_" ++ st, .str p, "image",
                     "截图来自 " ++ url ++ " (任务: " ++ task.name ++ ")"⟩])
        | none => (none, [])
      else (none, [])
    let commonWrites : List VarWrite :=
      [⟨"status_" ++ su ++ "_" ++ st, .str (if success then "成功" else "失败"), "text",
         "巡检状态 " ++ url ++ " (任务: " ++ task.name ++ ")"⟩,
       ⟨"response_time_" ++ su ++ "_" ++ st, .str (o.responseTimeStr url), "text",
         "响应时间 " ++ url ++ " (任务: " ++ task.name ++ ")"⟩,
       ⟨"content_size_" ++ su ++ "_" ++ st, .str (toString content.utf8ByteSize ++ " 字节"),
         "text", "内容大小 " ++ url ++ " (任务: " ++ task.name ++ ")"⟩]
    ({ base with
       success := success
       status_code := some status
       content_size := some content.utf8ByteSize
       check_results := crs
       screenshot_path := shotPair.1 },
     checkWrites ++ shotPair.2 ++ commonWrites)

/-- The four per run timestamp variables (patrol.py lines 187 to 224). -/
def timeVarWrites (o : Oracles) (task : PatrolTask) (now : Nat) : List VarWrite :=
  let st := pySafeName task.name
  [⟨"patrol_time_" ++ st, .str (o.fmtHMS now), "text",
     "巡检执行时间 (任务: " ++ task.name ++ ")"⟩,
   ⟨"patrol_time_formatted_" ++ st, .str (o.fmtLong now), "text",
     "巡检执行时间-完整格式 (任务: " ++ task.name ++ ")"⟩,
   ⟨"patrol_date_" ++ st, .str (o.fmtDate now), "text",
     "巡检执行日期 (任务: " ++ task.name ++ ")"⟩,
   ⟨"patrol_datetime_" ++ st, .str (o.fmtDateTime now), "text",
     "巡检执行日期时间 (任务: " ++ task.name ++ ")"⟩]

/-- PatrolEngine.execute_patrol_task (patrol.py lines 175 to 245). The task
registry is a map from name to task; now is the patrol_time instant taken at
the start of the run. Returns the results in website order, the sequence of
variable writes, and the registry after the run, in which the executed task
carries the updated last_run and run_count. Observer callbacks receive each
result in order and their exceptions are swallowed, so they have no effect on
this state; an unknown name raises ValueError, modelled as the error case. -/
def execute_patrol_task (o : Oracles) (env : String → HttpOutcome)
    (tasks : String → Option PatrolTask) (task_name : String) (now : Nat) :
    Except String (List PatrolResultM × List VarWrite × (String → Option PatrolTask)) :=
  match tasks task_name with
  | none => .error ("Patrol task not found: " ++ task_name)
  | some task =>
    if !task.enabled then .ok ([], [], tasks)
    else
      let pairs := task.websites.map (fun u => patrol_website o env task u)
      let results := pairs.map (fun p => p.1)
      let writes := timeVarWrites o task now ++ (pairs.map (fun p => p.2)).flatten
      let updated := { task with last_run := some now, run_count := task.run_count + 1 }
      .ok (results, writes, Function.update tasks task_name (some updated))

/-! Concrete instances shared by witnesses and counterexamples. -/

/-- A calendar oracle for the monthly branch; no claim depends on it. -/
def noCal : Nat → ClockTime → Nat := fun _ _ => 0

/-- Oracles where every collaborator fails or returns nothing. -/
def trivialOracles : Oracles :=
  { css := fun _ _ => []
    xpath := fun _ _ => []
    regexSearch := fun _ _ => false
    jsonExtract := fun _ _ => none
    captureScreenshot := fun _ _ => none
    captureElementScreenshot := fun _ _ _ => none
    captureFullPageScreenshot := fun _ _ => none
    downloadFile := fun _ _ => none
    getDownloadInfo := fun _ => ⟨false, none, none⟩
    nowStamp := "1970-01-05 08:00:00"
    responseTimeStr := fun _ => "0.10秒"
    fmtHMS := fun _ => "08:00:00"
    fmtLong := fun _ => "1970年01月05日 08:00:00"
    fmtDate := fun _ => "1970-01-05"
    fmtDateTime := fun _ => "1970-01-05 08:00:00" }

/-- A sample daily task named t with start time 09:00. -/
def sampleDailyTask : PatrolTask :=
  { name := "t", description := "", websites := ["http://a", "http://b"], checks := []
    frequency := .daily, custom_schedule := none, start_time := ⟨9, 0⟩
    multiple_times := [], auth_config := none, generate_report := false
    report_format := "word", notify_on_failure := true, notify_on_success := false
    timeout := 30, retry_count := 2, enabled := true, last_run := none, next_run := none
    run_count := 0 }

/-- The sample task with weekly frequency. -/
def sampleWeeklyTask : PatrolTask := { sampleDailyTask with frequency := .weekly }

/-! C9. The auto typing of set_variable on booleans. -/

/-- C9: storing a boolean with type auto records type number, never boolean.
In Python isinstance(True, (int, float)) is true because bool subclasses int,
so the branch of variables.py line 31 that would return boolean is dead code;
the claim and the spec say set(name, True) records type boolean. -/
theorem c9_auto_bool_stores_number :
    ∀ fsExists : String → Bool,
      (lookupStore (set_variable fsExists [] "flag" (.bool true) "auto" "") "flag").map
          (fun e => e.vtype) = some "number" ∧
        inferAutoType fsExists (.bool true) ≠ "boolean" :=
  fun fsExists =>
    ⟨rfl, by simp [inferAutoType, strEndsWithImageExt, strExistingPath, pyIsIntFloat]⟩

/-! C3. Daily schedule calculation. -/

/-- The daily rule written without the intermediate let binding. -/
theorem dailyNext_eq (start : ClockTime) (now : Nat) :
    dailyNext start now
      = if replaceTime now start ≤ now then replaceTime now start + 86400
        else replaceTime now start := rfl

/-- C3: for a daily task with a well formed start time, the calculated next
run is the next occurrence of the start time strictly after now: today when
that instant is still strictly in the future, otherwise tomorrow; it is always
strictly after now, lands on the start time of day, and is the least such
instant. -/
theorem c3_daily_next_run (cal : Nat → ClockTime → Nat) (task : PatrolTask) (now : Nat)
    (hfreq : task.frequency = .daily)
    (hh : task.start_time.hour < 24) (hm : task.start_time.minute < 60) :
    (now < replaceTime now task.start_time →
      calculate_next_run_time cal task now = replaceTime now task.start_time) ∧
    (replaceTime now task.start_time ≤ now →
      calculate_next_run_time cal task now = replaceTime now task.start_time + 86400) ∧
    now < calculate_next_run_time cal task now ∧
    calculate_next_run_time cal task now % 86400 = secondsOfDay task.start_time ∧
    (∀ t, now < t → t % 86400 = secondsOfDay task.start_time →
      calculate_next_run_time cal task now ≤ t) := by
  have hcalc : calculate_next_run_time cal task now = dailyNext task.start_time now := by
    unfold calculate_next_run_time
    rw [hfreq]
    simp
  have hs : secondsOfDay task.start_time < 86400 := by
    unfold secondsOfDay; omega
  rw [hcalc, dailyNext_eq]
  unfold replaceTime at hs ⊢
  split_ifs with hle
  · refine ⟨by omega, fun _ => rfl, by omega, by omega, ?_⟩
    intro t ht1 ht2
    omega
  · refine ⟨fun _ => rfl, by omega, by omega, by omega, ?_⟩
    intro t ht1 ht2
    omega

/-- C3 witness: start 09:00 on Monday 1970-01-05; at 08:00 (374400) the next
run is today 09:00 (378000), at 10:00 (381600) it is tomorrow 09:00
(464400). -/
theorem c3_daily_next_run_witness :
    calculate_next_run_time noCal sampleDailyTask 374400 = 378000 ∧
    calculate_next_run_time noCal sampleDailyTask 381600 = 464400 := by
  constructor
  · exact ((c3_daily_next_run noCal sampleDailyTask 374400 rfl (by decide)
      (by decide)).1 (by decide)).trans (by decide)
  · exact ((c3_daily_next_run noCal sampleDailyTask 381600 rfl (by decide)
      (by decide)).2.1 (by decide)).trans (by decide)

/-! C5. Weekly schedule calculation. -/

/-- C5 counterexample: 374400 is Monday 1970-01-05 at 08:00 and the start time
09:00 of that day, 378000, is still strictly ahead; the claim says the next
run is today at 09:00, but the code returns the following Monday. -/
theorem c5_weekly_counterexample :
    weekdayOf 374400 = 0 ∧ 374400 < 378000 ∧
    replaceTime 374400 sampleWeeklyTask.start_time = 378000 ∧
    calculate_next_run_time noCal sampleWeeklyTask 374400 ≠ 378000 ∧
    calculate_next_run_time noCal sampleWeeklyTask 374400 = 982800 := by decide

/-- C5 amended: for a weekly task the calculated next run is the Monday
strictly after the current day at start time, between one and seven days
ahead; on a Monday it is always the following Monday, even when the start
time has not yet passed, so it is never today. -/
theorem c5_weekly_next_monday (cal : Nat → ClockTime → Nat) (task : PatrolTask) (now : Nat)
    (hfreq : task.frequency = .weekly)
    (hh : task.start_time.hour < 24) (hm : task.start_time.minute < 60) :
    calculate_next_run_time cal task now
      = (now / 86400 + (7 - weekdayOf now)) * 86400 + secondsOfDay task.start_time ∧
    weekdayOf (calculate_next_run_time cal task now) = 0 ∧
    now / 86400 < calculate_next_run_time cal task now / 86400 ∧
    calculate_next_run_time cal task now / 86400 ≤ now / 86400 + 7 ∧
    calculate_next_run_time cal task now % 86400 = secondsOfDay task.start_time := by
  have hwd : weekdayOf now < 7 := Nat.mod_lt _ (by norm_num)
  have hs : secondsOfDay task.start_time < 86400 := by
    unfold secondsOfDay; omega
  have hcalc : calculate_next_run_time cal task now
      = replaceTime (now + (7 - weekdayOf now) * 86400) task.start_time := by
    unfold calculate_next_run_time
    rw [hfreq]
    simp only [reduceCtorEq, if_false]
    have hcond : ((0 : Int) - (weekdayOf now : Int)) ≤ 0 := by omega
    rw [if_pos hcond]
    have harg : ((0 : Int) - (weekdayOf now : Int) + 7).toNat = 7 - weekdayOf now := by omega
    rw [harg]
    simp
  rw [hcalc]
  unfold replaceTime weekdayOf at hwd ⊢
  unfold secondsOfDay at hs ⊢
  refine ⟨by omega, by omega, by omega, by omega, by omega⟩

/-- C5 amended witness: on Wednesday 1970-01-07 (day six) the next weekly run
is Monday 1970-01-12 at 09:00. -/
theorem c5_weekly_next_monday_witness :
    calculate_next_run_time noCal sampleWeeklyTask 518400 = 982800 := by
  exact (c5_weekly_next_monday noCal sampleWeeklyTask 518400 rfl (by decide)
    (by decide)).1.trans (by decide)

/-! C8. Naming of derived variables. -/

/-- Modelled from the spec words of C8: the character set [A-Za-z0-9_] claimed
for safe variable names. -/
def specSafeChar (c : Char) : Bool :=
  ('A' ≤ c && c ≤ 'Z') || ('a' ≤ c && c ≤ 'z') || ('0' ≤ c && c ≤ '9') || c == '_'

/-- A content check whose name contains a dot. -/
def dotCheck : PatrolCheck :=
  { name := "a.b", type := .content_check, target := "p", expected_value := none
    tolerance := none, description := "", enabled := true, associated_url := none }

/-- C8 counterexample: with a check named a.b under the task named t, the
derived variable names keep the dot, for example status_a.b_t, which contains
a character outside [A-Za-z0-9_]; safe names are not stripped to that set,
because the source only replaces spaces and hyphens with underscores. -/
theorem c8_counterexample :
    ((execute_patrol_check trivialOracles dotCheck sampleDailyTask "u" "" 200 "").2.map
      (fun w => w.name)) = ["status_a.b_t", "timestamp_a.b_t"] ∧
    "status_a.b_t".data.all specSafeChar = false := by
  constructor
  · rfl
  · decide

/-- Every write of the visual branch is the visual variable. -/
theorem visual_write_name {o : Oracles} {check : PatrolCheck} {task : PatrolTask}
    {url : String} {w : VarWrite} (hw : w ∈ (visualCheckRes o check task url).2) :
    w.name = "visual" ++ "_" ++ pySafeName check.name ++ "_" ++ pySafeName task.name := by
  unfold visualCheckRes at hw
  rcases hshot : visualShot o check task url with ⟨p, m⟩
  rw [hshot] at hw
  rcases p with _ | path
  · simp at hw
  · simp only [List.mem_singleton] at hw
    subst hw
    rfl

/-- Every write of the download branch is one of the three download
variables. -/
theorem download_write_name {o : Oracles} {check : PatrolCheck} {task : PatrolTask}
    {url : String} {w : VarWrite} (hw : w ∈ (downloadCheckRes o check task url).2) :
    w.name = "download_path" ++ "_" ++ pySafeName check.name ++ "_" ++ pySafeName task.name ∨
    w.name = "download_size" ++ "_" ++ pySafeName check.name ++ "_" ++ pySafeName task.name ∨
    w.name = "download_name" ++ "_" ++ pySafeName check.name ++ "_" ++ pySafeName task.name := by
  unfold downloadCheckRes at hw
  simp only [] at hw
  rcases hdl : o.downloadFile check.target
      (task.name ++ "_" ++ check.name ++ "_" ++ safeUrl url) with _ | path
  · rw [hdl] at hw
    simp at hw
  · rw [hdl] at hw
    simp only [List.append_assoc, List.mem_append, List.mem_singleton] at hw
    rcases hw with hw | hw | hw
    · subst hw; left; rfl
    · rcases hsz : (o.getDownloadInfo path).size with _ | n <;> rw [hsz] at hw
      · simp at hw
      · by_cases hn : n = 0
        · simp [hn] at hw
        · simp only [hn, ne_eq, not_false_eq_true, if_true, List.mem_singleton] at hw
          subst hw; right; left; rfl
    · rcases hfn : (o.getDownloadInfo path).filename with _ | fn <;> rw [hfn] at hw
      · simp at hw
      · by_cases hn : fn = ""
        · simp [hn] at hw
        · simp only [hn, ne_eq, not_false_eq_true, if_true, List.mem_singleton] at hw
          subst hw; right; right; rfl

/-- C8 amended: every variable the check executor derives is stored under a
name kind_safe(check name)_safe(task name) for a kind from the fixed list,
where safe replaces spaces and hyphens with underscores and keeps every other
character unchanged (it does not strip characters outside [A-Za-z0-9_]). -/
theorem c8_check_variable_names (o : Oracles) (check : PatrolCheck) (task : PatrolTask)
    (url content : String) (status : Nat) (content_type : String) :
    ∀ w ∈ (execute_patrol_check o check task url content status content_type).2,
      ∃ kind ∈ (["status", "timestamp", "extracted", "validation", "api_status",
        "api_response", "visual", "download_path", "download_size", "download_name"] :
          List String),
        w.name = kind ++ "_" ++ pySafeName check.name ++ "_" ++ pySafeName task.name := by
  intro w hw
  unfold execute_patrol_check at hw
  cases htype : check.type
  all_goals rw [htype] at hw
  all_goals simp only [List.mem_append, List.mem_cons, List.not_mem_nil, or_false,
    false_or] at hw
  case content_check =>
    rcases hw with (h | h) | ht
    · exact ⟨"status", by simp, by subst h; rfl⟩
    · exact ⟨"timestamp", by simp, by subst h; rfl⟩
    · rcases hev : (contentCheckRes o check content).extracted_value with _ | ev <;>
        rw [hev] at ht
      · simp at ht
      · by_cases he : ev = ""
        · simp [he] at ht
        · simp only [he, ne_eq, not_false_eq_true, if_true, List.mem_cons] at ht
          rcases ht with h | h
          · exact ⟨"extracted", by simp, by subst h; rfl⟩
          · rcases hvs : (contentCheckRes o check content).validation_success with _ | vs <;>
              rw [hvs] at h
            · simp at h
            · simp only [List.mem_singleton] at h
              exact ⟨"validation", by simp, by subst h; rfl⟩
  case api_check =>
    rcases hw with (h | h) | h | ht
    · exact ⟨"status", by simp, by subst h; rfl⟩
    · exact ⟨"timestamp", by simp, by subst h; rfl⟩
    · exact ⟨"api_status", by simp, by subst h; rfl⟩
    · rcases hev : (apiCheckRes o check content status content_type).extracted_value
          with _ | ev <;> rw [hev] at ht
      · simp at ht
      · by_cases he : ev = ""
        · simp [he] at ht
        · simp only [he, ne_eq, not_false_eq_true, if_true, List.mem_singleton] at ht
          exact ⟨"api_response", by simp, by subst ht; rfl⟩
  case visual_check =>
    rcases hw with hb | h | h
    · exact ⟨"visual", by simp, visual_write_name hb⟩
    · exact ⟨"status", by simp, by subst h; rfl⟩
    · exact ⟨"timestamp", by simp, by subst h; rfl⟩
  case download_check =>
    rcases hw with hb | h | h
    · rcases download_write_name hb with h | h | h
      · exact ⟨"download_path", by simp, h⟩
      · exact ⟨"download_size", by simp, h⟩
      · exact ⟨"download_name", by simp, h⟩
    · exact ⟨"status", by simp, by subst h; rfl⟩
    · exact ⟨"timestamp", by simp, by subst h; rfl⟩
  case form_check =>
    rcases hw with h | h
    · exact ⟨"status", by simp, by subst h; rfl⟩
    · exact ⟨"timestamp", by simp, by subst h; rfl⟩

/-- C8 amended witness: the status write that the dotted check produces under
the trivial oracles carries a kind from the fixed list followed by the safe
names of check a.b and task t. -/
theorem c8_check_variable_names_witness :
    ∃ kind ∈ (["status", "timestamp", "extracted", "validation", "api_status",
      "api_response", "visual", "download_path", "download_size", "download_name"] :
        List String),
      (⟨"status_a.b_t", .str "失败", "text",
          "检查项 a.b 状态 (任务: t)"⟩ : VarWrite).name
        = kind ++ "_" ++ pySafeName dotCheck.name ++ "_" ++ pySafeName sampleDailyTask.name :=
  c8_check_variable_names trivialOracles dotCheck sampleDailyTask "u" "" 200 ""
    ⟨"status_a.b_t", .str "失败", "text", "检查项 a.b 状态 (任务: t)"⟩
    (by decide)

/-! C4. Multiple daily schedule calculation. -/

theorem mem_sortedTimes {ts : List ClockTime} {t : ClockTime} :
    t ∈ sortedTimes ts ↔ t ∈ ts :=
  (List.perm_insertionSort timeLe ts).mem_iff

theorem sortedTimes_sorted (ts : List ClockTime) : (sortedTimes ts).Sorted timeLe :=
  List.sorted_insertionSort timeLe ts

/-- In a list sorted by time of day, the first element satisfying a predicate
is minimal among all elements satisfying it. -/
theorem find?_sorted_min {l : List ClockTime} (hs : l.Sorted timeLe) {p : ClockTime → Bool}
    {t : ClockTime} (hf : l.find? p = some t) :
    ∀ u ∈ l, p u = true → secondsOfDay t ≤ secondsOfDay u := by
  induction l with
  | nil => simp at hf
  | cons a l ih =>
    rw [List.find?_cons_eq_some] at hf
    rcases hf with ⟨hpa, rfl⟩ | ⟨hpa, hf⟩
    · intro u hu hpu
      rcases List.mem_cons.mp hu with rfl | hu
      · exact Nat.le_refl _
      · exact (List.sorted_cons.mp hs).1 u hu
    · intro u hu hpu
      rcases List.mem_cons.mp hu with rfl | hu
      · rw [hpu] at hpa; cases hpa
      · exact ih (List.sorted_cons.mp hs).2 hf u hu hpu

/-- In a sorted nonempty list the head is minimal. -/
theorem headI_sorted_min {l : List ClockTime} (hs : l.Sorted timeLe) :
    ∀ u ∈ l, secondsOfDay l.headI ≤ secondsOfDay u := by
  cases l with
  | nil => intro u hu; cases hu
  | cons a l =>
    intro u hu
    rcases List.mem_cons.mp hu with rfl | hu
    · exact Nat.le_refl _
    · exact (List.sorted_cons.mp hs).1 u hu

/-- The behaviour of the multiple daily rule on a nonempty time list: when a
time of day strictly after now remains today, the result is today at the
least such time; otherwise it is tomorrow at the least time overall. -/
theorem multipleDailyNext_spec (times : List ClockTime) (start : ClockTime) (now : Nat)
    (hne : times ≠ []) :
    ((∃ u ∈ times, now % 86400 < secondsOfDay u) →
      ∃ t ∈ times,
        multipleDailyNext times start now = now / 86400 * 86400 + secondsOfDay t ∧
        now % 86400 < secondsOfDay t ∧
        ∀ u ∈ times, now % 86400 < secondsOfDay u → secondsOfDay t ≤ secondsOfDay u) ∧
    ((∀ u ∈ times, secondsOfDay u ≤ now % 86400) →
      ∃ t ∈ times,
        multipleDailyNext times start now
          = now / 86400 * 86400 + 86400 + secondsOfDay t ∧
        ∀ u ∈ times, secondsOfDay t ≤ secondsOfDay u) := by
  have hemp : times.isEmpty = false := by
    cases times with
    | nil => exact absurd rfl hne
    | cons a l => rfl
  have hval : multipleDailyNext times start now =
      match (sortedTimes times).find?
          (fun t => now / 86400 * 86400 + secondsOfDay t > now) with
      | some t => now / 86400 * 86400 + secondsOfDay t
      | none => now / 86400 * 86400 + 86400 + secondsOfDay (sortedTimes times).headI := by
    unfold multipleDailyNext
    rw [hemp]
    simp
  cases hfind : (sortedTimes times).find?
      (fun t => now / 86400 * 86400 + secondsOfDay t > now) with
  | some t =>
    rw [hfind] at hval
    simp only at hval
    have htmem : t ∈ times := mem_sortedTimes.mp (List.mem_of_find?_eq_some hfind)
    have hpt := List.find?_some hfind
    simp only [decide_eq_true_eq] at hpt
    have hmin := find?_sorted_min (sortedTimes_sorted times) hfind
    constructor
    · intro _
      refine ⟨t, htmem, hval, by omega, ?_⟩
      intro u hu hltu
      exact hmin u (mem_sortedTimes.mpr hu) (by simp only [decide_eq_true_eq]; omega)
    · intro hall
      exact absurd (hall t htmem) (by omega)
  | none =>
    rw [hfind] at hval
    simp only at hval
    have hnone := List.find?_eq_none.mp hfind
    have hall : ∀ u ∈ times, secondsOfDay u ≤ now % 86400 := by
      intro u hu
      have := hnone u (mem_sortedTimes.mpr hu)
      simp only [decide_eq_true_eq, not_lt] at this
      omega
    constructor
    · intro ⟨u, hu, hlt⟩
      exact absurd (hall u hu) (by omega)
    · intro _
      cases hsort : sortedTimes times with
      | nil =>
        exfalso
        have := (List.perm_insertionSort timeLe times).length_eq
        rw [show List.insertionSort timeLe times = sortedTimes times from rfl, hsort] at this
        cases times with
        | nil => exact hne rfl
        | cons a l => simp at this
      | cons a l =>
        have hhead : (sortedTimes times).headI = a := by rw [hsort]; rfl
        have hamem : a ∈ times := mem_sortedTimes.mp (by rw [hsort]; exact List.mem_cons_self a l)
        refine ⟨a, hamem, by rw [hval, hhead], ?_⟩
        intro u hu
        have := headI_sorted_min (sortedTimes_sorted times) u (mem_sortedTimes.mpr hu)
        rw [hhead] at this
        exact this

/-- C4: for a task with frequency multiple daily and nonempty multipleTimes,
the calculated next run is today at the smallest listed time of day strictly
after the time of day of now; when no listed time remains today, it is
tomorrow at the smallest listed time. -/
theorem c4_multiple_daily_next_run (cal : Nat → ClockTime → Nat) (task : PatrolTask)
    (now : Nat) (hfreq : task.frequency = .multiple_daily)
    (hne : task.multiple_times ≠ []) :
    ((∃ u ∈ task.multiple_times, now % 86400 < secondsOfDay u) →
      ∃ t ∈ task.multiple_times,
        calculate_next_run_time cal task now = now / 86400 * 86400 + secondsOfDay t ∧
        now % 86400 < secondsOfDay t ∧
        ∀ u ∈ task.multiple_times, now % 86400 < secondsOfDay u →
          secondsOfDay t ≤ secondsOfDay u) ∧
    ((∀ u ∈ task.multiple_times, secondsOfDay u ≤ now % 86400) →
      ∃ t ∈ task.multiple_times,
        calculate_next_run_time cal task now
          = now / 86400 * 86400 + 86400 + secondsOfDay t ∧
        ∀ u ∈ task.multiple_times, secondsOfDay t ≤ secondsOfDay u) := by
  have hcalc : calculate_next_run_time cal task now
      = multipleDailyNext task.multiple_times task.start_time now := by
    unfold calculate_next_run_time
    rw [hfreq]
    simp
  rw [hcalc]
  exact multipleDailyNext_spec task.multiple_times task.start_time now hne

/-- The sample task with multiple daily frequency at 09:00 and 14:00. -/
def sampleMultiTask : PatrolTask :=
  { sampleDailyTask with
    frequency := .multiple_daily
    multiple_times := [⟨9, 0⟩, ⟨14, 0⟩] }

/-- C4 witness: with times 09:00 and 14:00, at Monday 1970-01-05 10:00
(381600) the next run is today 14:00 (396000); at 15:00 (399600) it is
tomorrow 09:00 (464400). -/
theorem c4_multiple_daily_next_run_witness :
    calculate_next_run_time noCal sampleMultiTask 381600 = 396000 ∧
    calculate_next_run_time noCal sampleMultiTask 399600 = 464400 := by
  constructor
  · obtain ⟨t, htmem, heq, hlt, hmin⟩ :=
      (c4_multiple_daily_next_run noCal sampleMultiTask 381600 rfl (by decide)).1
        ⟨⟨14, 0⟩, by decide, by decide⟩
    simp only [sampleMultiTask, List.mem_cons, List.not_mem_nil, or_false] at htmem
    rcases htmem with h | h
    · subst h; exact absurd hlt (by decide)
    · subst h; rw [heq]; decide
  · obtain ⟨t, htmem, heq, hmin⟩ :=
      (c4_multiple_daily_next_run noCal sampleMultiTask 399600 rfl (by decide)).2
        (by intro u hu
            simp only [sampleMultiTask, List.mem_cons, List.not_mem_nil, or_false] at hu
            rcases hu with h | h <;> subst h <;> decide)
    have hm := hmin ⟨9, 0⟩ (by decide)
    simp only [sampleMultiTask, List.mem_cons, List.not_mem_nil, or_false] at htmem
    rcases htmem with h | h
    · subst h; rw [heq]; decide
    · subst h; exact absurd hm (by decide)

/-! C2. Per website success aggregation and sequencing. -/

/-- Modelled from the spec words of C2: the checks declared applicable to a
website are the enabled ones whose associated url is null or equals the
current url. -/
def applicableChecks (task : PatrolTask) (url : String) : List PatrolCheck :=
  task.checks.filter (fun c => c.enabled &&
    (c.associated_url == none || c.associated_url == some url))

/-- The check loop leaves success equal to the initial flag conjoined with
the success of every check it runs, where a check runs exactly when it is
enabled and not skipped for a foreign associated url. -/
theorem runChecks_success (o : Oracles) (task : PatrolTask) (url content : String)
    (status : Nat) (content_type : String) :
    ∀ (checks : List PatrolCheck) (init : Bool),
      (runChecks o task url content status content_type checks init).2.2
        = (init && (checks.filter (fun c => c.enabled &&
              !(truthy c.associated_url && (c.associated_url != some url)))).all
            (fun c => (execute_patrol_check o c task url content status content_type).1.success)) := by
  intro checks
  induction checks with
  | nil => intro init; simp [runChecks]
  | cons c rest ih =>
    intro init
    by_cases he : c.enabled
    · by_cases hskip : (truthy c.associated_url && (c.associated_url != some url)) = true
      · rw [runChecks, if_pos he, if_pos hskip, ih]
        have : (c.enabled && !(truthy c.associated_url && (c.associated_url != some url)))
            = false := by rw [hskip]; simp
        rw [List.filter_cons, this]
        simp
      · have hskip' : (truthy c.associated_url && (c.associated_url != some url)) = false := by
          revert hskip; cases truthy c.associated_url && (c.associated_url != some url) <;> simp
        rw [runChecks, if_pos he, hskip']
        simp only [Bool.false_eq_true, if_false]
        have hcons : (c.enabled && !(truthy c.associated_url && (c.associated_url != some url)))
            = true := by rw [he, hskip']; simp
        rw [List.filter_cons, hcons]
        simp only [if_true, List.all_cons]
        rw [ih]
        cases init <;>
          cases (execute_patrol_check o c task url content status content_type).1.success <;>
          simp
    · have he' : c.enabled = false := by revert he; cases c.enabled <;> simp
      rw [runChecks, if_neg he, ih]
      have : (c.enabled && !(truthy c.associated_url && (c.associated_url != some url)))
          = false := by rw [he']; simp
      rw [List.filter_cons, this]
      simp

/-- When every check has a nonempty or absent associated url, the checks the
engine runs are exactly the ones the spec declares applicable. -/
theorem filter_applicable_eq (task : PatrolTask) (url : String)
    (hassoc : ∀ c ∈ task.checks, c.associated_url ≠ some "") :
    task.checks.filter (fun c => c.enabled &&
        !(truthy c.associated_url && (c.associated_url != some url)))
      = applicableChecks task url := by
  unfold applicableChecks
  apply List.filter_congr
  intro c hc
  have hne := hassoc c hc
  cases hassocv : c.associated_url with
  | none => simp [truthy]
  | some s =>
    have hs : ¬ s = "" := by
      intro h
      exact hne (by rw [hassocv, h])
    have hts : truthy (some s) = true := by
      simp only [truthy]
      cases hemp : s.isEmpty
      · rfl
      · exact absurd ((String.isEmpty_iff s).mp hemp) hs
    rw [hts]
    by_cases hu : s = url
    · subst hu; simp
    · have h1 : ((some s : Option String) != some url) = true := by
        simp [bne_iff_ne, hu]
      have h2 : ((some s : Option String) == some url) = false :=
        beq_eq_false_iff_ne.mpr (fun h => hu (Option.some.inj h))
      simp [h1, h2]

/-- C2: for every website whose request yields a response, the recorded
success flag equals status in {200, 201, 202} conjoined with the success of
every applicable check (enabled, associated url null or equal to the current
url), and the status code is recorded; in particular a 500 response yields
success false with status code 500; and an enabled task run produces exactly
one result per website, in websites order, each equal to the patrol of that
website, so one failing website never prevents the others. -/
theorem c2_success_aggregation (o : Oracles) (env : String → HttpOutcome)
    (task : PatrolTask)
    (hassoc : ∀ c ∈ task.checks, c.associated_url ≠ some "") :
    (∀ url status content content_type, env url = .ok status content content_type →
      (patrol_website o env task url).1.success
          = ([200, 201, 202].contains status &&
             (applicableChecks task url).all
               (fun c => (execute_patrol_check o c task url content status content_type).1.success)) ∧
      (patrol_website o env task url).1.status_code = some status) ∧
    (∀ url content content_type, env url = .ok 500 content content_type →
      (patrol_website o env task url).1.success = false ∧
      (patrol_website o env task url).1.status_code = some 500) ∧
    (∀ (tasks : String → Option PatrolTask) (name : String) (now : Nat),
      tasks name = some task → task.enabled = true →
      ∃ writes tasks2,
        execute_patrol_task o env tasks name now
          = .ok (task.websites.map (fun u => (patrol_website o env task u).1),
              writes, tasks2)) := by
  have hmain : ∀ url status content content_type, env url = .ok status content content_type →
      (patrol_website o env task url).1.success
          = ([200, 201, 202].contains status &&
             (applicableChecks task url).all
               (fun c => (execute_patrol_check o c task url content status content_type).1.success)) ∧
      (patrol_website o env task url).1.status_code = some status := by
    intro url status content content_type henv
    unfold patrol_website
    rw [henv]
    constructor
    · simp only []
      rw [runChecks_success, filter_applicable_eq task url hassoc]
    · simp only []
  refine ⟨hmain, ?_, ?_⟩
  · intro url content content_type henv
    obtain ⟨hsucc, hcode⟩ := hmain url 500 content content_type henv
    refine ⟨?_, hcode⟩
    rw [hsucc]
    simp
  · intro tasks name now hreg hen
    unfold execute_patrol_task
    rw [hreg]
    simp only []
    rw [if_neg (by rw [hen]; simp)]
    refine ⟨timeVarWrites o task now ++
        (List.map (fun p => p.2)
          (List.map (fun u => patrol_website o env task u) task.websites)).flatten,
      Function.update tasks name
        (some { task with last_run := some now, run_count := task.run_count + 1 }), ?_⟩
    rw [show List.map (fun u => (patrol_website o env task u).1) task.websites
        = List.map (fun p => p.1)
            (List.map (fun u => patrol_website o env task u) task.websites) by
      rw [List.map_map]; rfl]

/-- A task with one content check bound to no particular url. -/
def sampleCheckedTask : PatrolTask :=
  { sampleDailyTask with
    checks := [{ name := "c", type := .content_check, target := "p", expected_value := none
                 tolerance := none, description := "", enabled := true
                 associated_url := none }] }

/-- An HTTP layer where website a answers 200 and every other url answers
500. -/
def sampleEnv : String → HttpOutcome :=
  fun u => if u = "http://a" then .ok 200 "<html>x</html>" "text/html"
           else .ok 500 "boom" "text/html"

/-- C2 witness: under the sample environment, website b gets a 500 and its
result records success false with status code 500. -/
theorem c2_success_aggregation_witness :
    (patrol_website trivialOracles sampleEnv sampleCheckedTask "http://b").1.success = false ∧
    (patrol_website trivialOracles sampleEnv sampleCheckedTask "http://b").1.status_code
      = some 500 := by
  have h := c2_success_aggregation trivialOracles sampleEnv sampleCheckedTask
    (by intro c hc
        simp only [sampleCheckedTask, List.mem_singleton] at hc
        subst hc
        simp)
  exact h.2.1 "http://b" "boom" "text/html" rfl

/-! C10. Frame conditions of execute_patrol_task. -/

/-- C10: with the task registered under the name, a disabled task yields an
empty result, no variable writes and an untouched registry; an enabled task
yields one result per website, and the registry after the run maps the name to
the task with run_count incremented by one and last_run set to the start
instant, every other field unchanged, and maps every other name as before. -/
theorem c10_execute_frame (o : Oracles) (env : String → HttpOutcome)
    (tasks : String → Option PatrolTask) (name : String) (now : Nat) (task : PatrolTask)
    (hreg : tasks name = some task) :
    (task.enabled = false →
      execute_patrol_task o env tasks name now = .ok ([], [], tasks)) ∧
    (task.enabled = true →
      ∃ results writes task2,
        execute_patrol_task o env tasks name now
          = .ok (results, writes, Function.update tasks name (some task2)) ∧
        results.length = task.websites.length ∧
        task2.run_count = task.run_count + 1 ∧
        task2.last_run = some now ∧
        task2.next_run = task.next_run ∧
        task2.name = task.name ∧
        task2.websites = task.websites ∧
        task2.checks = task.checks ∧
        task2.frequency = task.frequency ∧
        task2.custom_schedule = task.custom_schedule ∧
        task2.start_time = task.start_time ∧
        task2.multiple_times = task.multiple_times ∧
        task2.auth_config = task.auth_config ∧
        task2.generate_report = task.generate_report ∧
        task2.timeout = task.timeout ∧
        task2.retry_count = task.retry_count ∧
        task2.enabled = task.enabled ∧
        (Function.update tasks name (some task2)) name = some task2 ∧
        (∀ m, m ≠ name → (Function.update tasks name (some task2)) m = tasks m)) := by
  constructor
  · intro hdis
    unfold execute_patrol_task
    rw [hreg]
    simp only []
    rw [if_pos (by rw [hdis]; simp)]
  · intro hen
    unfold execute_patrol_task
    rw [hreg]
    simp only []
    rw [if_neg (by rw [hen]; simp)]
    refine ⟨_, _, { task with last_run := some now, run_count := task.run_count + 1 },
      rfl, by simp, rfl, rfl, rfl, rfl, rfl, rfl, rfl, rfl, rfl, rfl, rfl, rfl, rfl,
      rfl, rfl, Function.update_same name _ tasks, ?_⟩
    intro m hm
    exact Function.update_noteq hm (some _) tasks

/-- A disabled copy of the sample task. -/
def sampleDisabledTask : PatrolTask := { sampleDailyTask with enabled := false }

/-- A registry holding the checked task under t and a disabled task under
d. -/
def sampleRegistry : String → Option PatrolTask :=
  fun n => if n = "t" then some sampleCheckedTask
           else if n = "d" then some sampleDisabledTask
           else none

/-- C10 witness: running t updates only its run count and last run and keeps
two results, one per website; running the disabled d returns the empty result
and leaves the registry untouched. -/
theorem c10_execute_frame_witness :
    (∃ results writes task2,
      execute_patrol_task trivialOracles sampleEnv sampleRegistry "t" 1000
        = .ok (results, writes, Function.update sampleRegistry "t" (some task2)) ∧
      results.length = 2 ∧ task2.run_count = 1 ∧ task2.last_run = some 1000 ∧
      task2.next_run = none) ∧
    execute_patrol_task trivialOracles sampleEnv sampleRegistry "d" 1000
      = .ok ([], [], sampleRegistry) := by
  constructor
  · obtain ⟨rs, ws, t2, heq, hlen, hrc, hlr, hnr, _⟩ :=
      (c10_execute_frame trivialOracles sampleEnv sampleRegistry "t" 1000
        sampleCheckedTask rfl).2 rfl
    refine ⟨rs, ws, t2, heq, ?_, ?_, hlr, ?_⟩
    · rw [hlen]; rfl
    · rw [hrc]; rfl
    · rw [hnr]; rfl
  · exact (c10_execute_frame trivialOracles sampleEnv sampleRegistry "d" 1000
      sampleDisabledTask rfl).1 rfl

/-! C7. Content check success logic. -/

theorem truthy_some_ne {s : String} (hs : s ≠ "") : truthy (some s) = true := by
  simp only [truthy]
  cases hemp : s.isEmpty
  · rfl
  · exact absurd ((String.isEmpty_iff s).mp hemp) hs

theorem truthy_none : truthy none = false := rfl

/-- The content branch projected out of the executor. -/
theorem execute_content_eq (o : Oracles) (check : PatrolCheck) (task : PatrolTask)
    (url content : String) (status : Nat) (content_type : String)
    (htype : check.type = .content_check) :
    (execute_patrol_check o check task url content status content_type).1
      = contentCheckRes o check content := by
  unfold execute_patrol_check
  rw [htype]

/-- The success logic of the content branch: with an extracted first match and
a nonempty expected value, success is the validation under tolerance and both
the extracted value and the validation outcome are recorded; with no expected
value, success is extraction success; with no match and a nonempty expected
value, success is a raw substring search over the whole body. -/
theorem contentCheckRes_spec (o : Oracles) (check : PatrolCheck) (content : String)
    (hexp : check.expected_value ≠ some "") :
    (∀ ev e,
      (if pyStartsWith check.target "//" || pyStartsWith check.target "/"
       then o.xpath check.target content else o.css check.target content).head? = some ev →
      check.expected_value = some e →
      (contentCheckRes o check content).success = validateTolerance o check.tolerance e ev ∧
      (contentCheckRes o check content).extracted_value = some ev ∧
      (contentCheckRes o check content).validation_success
        = some (validateTolerance o check.tolerance e ev)) ∧
    (check.expected_value = none →
      (contentCheckRes o check content).success
        = (if pyStartsWith check.target "//" || pyStartsWith check.target "/"
           then o.xpath check.target content else o.css check.target content).head?.isSome) ∧
    (∀ e,
      (if pyStartsWith check.target "//" || pyStartsWith check.target "/"
       then o.xpath check.target content else o.css check.target content).head? = none →
      check.expected_value = some e →
      (contentCheckRes o check content).success = pyIn e content) := by
  refine ⟨?_, ?_, ?_⟩
  · intro ev e hx he
    have he' : e ≠ "" := fun h => hexp (by rw [he, h])
    unfold contentCheckRes
    cases hsw : pyStartsWith check.target "//" || pyStartsWith check.target "/" <;>
      simp only [hsw, Bool.false_eq_true, if_false, if_true] at hx ⊢
    · cases helems : o.css check.target content with
      | nil => rw [helems] at hx; simp at hx
      | cons x xs =>
        rw [helems] at hx
        simp only [List.head?_cons, Option.some.injEq] at hx
        subst hx
        simp only [he, truthy_some_ne he', if_true, Option.getD_some]
        refine ⟨?_, ?_, ?_⟩ <;> first | rfl | trivial
    · cases helems : o.xpath check.target content with
      | nil => rw [helems] at hx; simp at hx
      | cons x xs =>
        rw [helems] at hx
        simp only [List.head?_cons, Option.some.injEq] at hx
        subst hx
        simp only [he, truthy_some_ne he', if_true, Option.getD_some]
        refine ⟨?_, ?_, ?_⟩ <;> first | rfl | trivial
  · intro hnone
    unfold contentCheckRes
    cases hsw : pyStartsWith check.target "//" || pyStartsWith check.target "/" <;>
      simp only [hsw, Bool.false_eq_true, if_false, if_true]
    · cases helems : o.css check.target content with
      | nil => simp only [hnone, truthy_none, Bool.false_eq_true, if_false]; rfl
      | cons x xs => simp only [hnone, truthy_none, Bool.false_eq_true, if_false]; rfl
    · cases helems : o.xpath check.target content with
      | nil => simp only [hnone, truthy_none, Bool.false_eq_true, if_false]; rfl
      | cons x xs => simp only [hnone, truthy_none, Bool.false_eq_true, if_false]; rfl
  · intro e hx he
    have he' : e ≠ "" := fun h => hexp (by rw [he, h])
    unfold contentCheckRes
    cases hsw : pyStartsWith check.target "//" || pyStartsWith check.target "/" <;>
      simp only [hsw, Bool.false_eq_true, if_false, if_true] at hx ⊢
    · cases helems : o.css check.target content with
      | nil =>
        simp only [he, truthy_some_ne he', if_true, Option.getD_some]
        try first | rfl | trivial
      | cons x xs => rw [helems] at hx; simp at hx
    · cases helems : o.xpath check.target content with
      | nil =>
        simp only [he, truthy_some_ne he', if_true, Option.getD_some]
        try first | rfl | trivial
      | cons x xs => rw [helems] at hx; simp at hx

/-- C7: for a content check whose expected value is absent or nonempty (the
repository never builds an empty one), the recorded success is the validation
outcome under tolerance when a first match is extracted and an expected value
is present, extraction success when no expected value is present, and a raw
substring search over the full body when no match is found but an expected
value is present; the extracted value and validation outcome are recorded. -/
theorem c7_content_check_success (o : Oracles) (check : PatrolCheck) (task : PatrolTask)
    (url content : String) (status : Nat) (content_type : String)
    (htype : check.type = .content_check)
    (hexp : check.expected_value ≠ some "") :
    (∀ ev e,
      (if pyStartsWith check.target "//" || pyStartsWith check.target "/"
       then o.xpath check.target content else o.css check.target content).head? = some ev →
      check.expected_value = some e →
      (execute_patrol_check o check task url content status content_type).1.success
          = validateTolerance o check.tolerance e ev ∧
      (execute_patrol_check o check task url content status content_type).1.extracted_value
          = some ev ∧
      (execute_patrol_check o check task url content status content_type).1.validation_success
          = some (validateTolerance o check.tolerance e ev)) ∧
    (check.expected_value = none →
      (execute_patrol_check o check task url content status content_type).1.success
        = (if pyStartsWith check.target "//" || pyStartsWith check.target "/"
           then o.xpath check.target content else o.css check.target content).head?.isSome) ∧
    (∀ e,
      (if pyStartsWith check.target "//" || pyStartsWith check.target "/"
       then o.xpath check.target content else o.css check.target content).head? = none →
      check.expected_value = some e →
      (execute_patrol_check o check task url content status content_type).1.success
        = pyIn e content) := by
  rw [execute_content_eq o check task url content status content_type htype]
  exact contentCheckRes_spec o check content hexp

/-- Oracles whose css selection of the target title on the example page finds
the element text Example Domain. -/
def exampleOracles : Oracles :=
  { trivialOracles with
    css := fun t c =>
      if t = "title" && pyIn "<title>Example Domain</title>" c
      then ["Example Domain"] else [] }

/-- The example content check: target title, expected Example, tolerance
contains. -/
def exampleCheck : PatrolCheck :=
  { name := "title", type := .content_check, target := "title"
    expected_value := some "Example", tolerance := some "contains", description := ""
    enabled := true, associated_url := none }

/-- The example page body. -/
def examplePage : String := "<html><title>Example Domain</title></html>"

/-- C7 witness: the example check against the example page succeeds and
records the extracted value Example Domain. -/
theorem c7_content_check_success_witness :
    (execute_patrol_check exampleOracles exampleCheck sampleDailyTask "u" examplePage
      200 "text/html").1.success = true ∧
    (execute_patrol_check exampleOracles exampleCheck sampleDailyTask "u" examplePage
      200 "text/html").1.extracted_value = some "Example Domain" := by
  obtain ⟨hsucc, hev, _⟩ :=
    (c7_content_check_success exampleOracles exampleCheck sampleDailyTask "u" examplePage
      200 "text/html" rfl (by decide)).1 "Example Domain" "Example" (by decide) rfl
  refine ⟨?_, hev⟩
  rw [hsucc]
  decide

/-! C6. Placeholder substitution. -/

theorem substituteChars_nil (store : VarStore) : substituteChars store [] = [] := by
  simp [substituteChars]

/-- A head that does not open a placeholder passes through the scan
verbatim. -/
theorem substituteChars_cons_shape (store : VarStore) (c : Char) (rest : List Char)
    (hshape : ∀ r, c = '$' → rest = '{' :: r → False) :
    substituteChars store (c :: rest) = c :: substituteChars store rest := by
  rw [substituteChars.eq_def]
  split
  · rename_i heq
    exact absurd heq (by simp)
  · rename_i r heq
    rw [List.cons.injEq] at heq
    exact (hshape r heq.1 heq.2).elim
  · rename_i heq
    rw [List.cons.injEq] at heq
    rw [heq.1, heq.2]

/-- The same fact for the placeholder name scan. -/
theorem placeholderNames_cons_shape (c : Char) (rest : List Char)
    (hshape : ∀ r, c = '$' → rest = '{' :: r → False) :
    placeholderNames (c :: rest) = placeholderNames rest := by
  rw [placeholderNames.eq_def]
  split
  · rename_i heq
    exact absurd heq (by simp)
  · rename_i r heq
    rw [List.cons.injEq] at heq
    exact (hshape r heq.1 heq.2).elim
  · rename_i heq
    rw [List.cons.injEq] at heq
    rw [heq.2]

/-- A character other than a dollar sign passes through the scan verbatim. -/
theorem substituteChars_cons_ne (store : VarStore) {c : Char} (hc : c ≠ '$')
    (rest : List Char) :
    substituteChars store (c :: rest) = c :: substituteChars store rest :=
  substituteChars_cons_shape store c rest (fun _ h _ => hc h)

/-- The scan on a placeholder head whose name is bound in the store: replace
by the printed value and continue after the closing brace. -/
theorem substituteChars_hit_head (store : VarStore) {rest name rest' : List Char}
    {v : PyValue} (hfc : findClose rest = some (name, rest')) (hne : name ≠ [])
    (hv : get_variable store (String.mk name) = some v) :
    substituteChars store ('$' :: '{' :: rest)
      = (pyStr v).data ++ substituteChars store rest' := by
  simp only [substituteChars]
  split
  · rename_i name1 rest1 heq
    rw [hfc] at heq
    have hp := Option.some.inj heq
    have h1 := congrArg Prod.fst hp
    have h2 := congrArg Prod.snd hp
    simp only at h1 h2
    subst h1; subst h2
    rw [if_neg (by simp [hne]), hv]
  · rename_i heq
    rw [hfc] at heq
    cases heq

/-- The scan on a placeholder head whose name is unbound: keep the match
verbatim and continue after the closing brace. -/
theorem substituteChars_miss_head (store : VarStore) {rest name rest' : List Char}
    (hfc : findClose rest = some (name, rest')) (hne : name ≠ [])
    (hv : get_variable store (String.mk name) = none) :
    substituteChars store ('$' :: '{' :: rest)
      = '$' :: '{' :: (name ++ '}' :: substituteChars store rest') := by
  simp only [substituteChars]
  split
  · rename_i name1 rest1 heq
    rw [hfc] at heq
    have hp := Option.some.inj heq
    have h1 := congrArg Prod.fst hp
    have h2 := congrArg Prod.snd hp
    simp only at h1 h2
    subst h1; subst h2
    rw [if_neg (by simp [hne]), hv]
  · rename_i heq
    rw [hfc] at heq
    cases heq

/-- The scan on a dollar and brace head with an empty candidate name: the
engine finds no match here and moves on past the dollar sign. -/
theorem substituteChars_empty_head (store : VarStore) {rest rest' : List Char}
    (hfc : findClose rest = some ([], rest')) :
    substituteChars store ('$' :: '{' :: rest)
      = '$' :: substituteChars store ('{' :: rest) := by
  simp only [substituteChars]
  split
  · rename_i name1 rest1 heq
    rw [hfc] at heq
    have hp := Option.some.inj heq
    have h1 := congrArg Prod.fst hp
    have h2 := congrArg Prod.snd hp
    simp only at h1 h2
    subst h1; subst h2
    rw [if_pos (show ([] : List Char).isEmpty = true from rfl)]
  · rename_i heq
    rw [hfc] at heq
    cases heq

/-- The scan on a dollar and brace head with no closing brace ahead: nothing
can match any more, the text passes verbatim. -/
theorem substituteChars_none_head (store : VarStore) {rest : List Char}
    (hfc : findClose rest = none) :
    substituteChars store ('$' :: '{' :: rest) = '$' :: '{' :: rest := by
  simp only [substituteChars]
  split
  · rename_i name1 rest1 heq
    rw [hfc] at heq
    cases heq
  · rfl

/-- The matched name list on a placeholder head with a nonempty candidate
name. -/
theorem placeholderNames_some_head {rest name rest' : List Char}
    (hfc : findClose rest = some (name, rest')) (hne : name ≠ []) :
    placeholderNames ('$' :: '{' :: rest)
      = String.mk name :: placeholderNames rest' := by
  simp only [placeholderNames]
  split
  · rename_i name1 rest1 heq
    rw [hfc] at heq
    have hp := Option.some.inj heq
    have h1 := congrArg Prod.fst hp
    have h2 := congrArg Prod.snd hp
    simp only at h1 h2
    subst h1; subst h2
    rw [if_neg (by simp [hne])]
  · rename_i heq
    rw [hfc] at heq
    cases heq

/-- The matched name list on a dollar and brace head with an empty candidate
name. -/
theorem placeholderNames_empty_head {rest rest' : List Char}
    (hfc : findClose rest = some ([], rest')) :
    placeholderNames ('$' :: '{' :: rest) = placeholderNames ('{' :: rest) := by
  simp only [placeholderNames]
  split
  · rename_i name1 rest1 heq
    rw [hfc] at heq
    have hp := Option.some.inj heq
    have h1 := congrArg Prod.fst hp
    have h2 := congrArg Prod.snd hp
    simp only at h1 h2
    subst h1; subst h2
    rw [if_pos (show ([] : List Char).isEmpty = true from rfl)]
  · rename_i heq
    rw [hfc] at heq
    cases heq

/-- The matched name list on a dollar and brace head with no closing brace
ahead. -/
theorem placeholderNames_none_head {rest : List Char}
    (hfc : findClose rest = none) :
    placeholderNames ('$' :: '{' :: rest) = [] := by
  simp only [placeholderNames]
  split
  · rename_i name1 rest1 heq
    rw [hfc] at heq
    cases heq
  · rfl

/-- The text a successful closer scan decomposes. -/
theorem findClose_decomp {cs name rest : List Char}
    (h : findClose cs = some (name, rest)) : cs = name ++ '}' :: rest := by
  induction cs generalizing name rest with
  | nil => simp [findClose] at h
  | cons c cs ih =>
    rw [findClose] at h
    by_cases hc : c = '}'
    · rw [if_pos hc] at h
      have hp := Option.some.inj h
      have h1 := congrArg Prod.fst hp
      have h2 := congrArg Prod.snd hp
      simp only at h1 h2
      subst h1; subst h2
      rw [hc]
      rfl
    · rw [if_neg hc] at h
      cases hfc : findClose cs with
      | none => rw [hfc] at h; simp at h
      | some p =>
        rw [hfc] at h
        have hp := Option.some.inj
          (show some ((c :: p.1 : List Char), p.2) = some (name, rest) from h)
        have h1 := congrArg Prod.fst hp
        have h2 := congrArg Prod.snd hp
        simp only at h1 h2
        subst h1; subst h2
        rw [ih (show findClose cs = some (p.1, p.2) by rw [hfc])]
        rfl

/-- Scanning the closer of a well formed placeholder. -/
theorem findClose_append {n : List Char} (hn : '}' ∉ n) (b : List Char) :
    findClose (n ++ '}' :: b) = some (n, b) := by
  induction n with
  | nil => simp [findClose]
  | cons c n ih =>
    have hc : c ≠ '}' := fun h => hn (h ▸ List.mem_cons_self c n)
    rw [List.cons_append, findClose, if_neg hc,
      ih (fun h => hn (List.mem_cons_of_mem c h))]
    rfl

/-- A prefix free of dollar signs passes through the scan verbatim. -/
theorem substituteChars_append (store : VarStore) {a : List Char} (ha : '$' ∉ a)
    (r : List Char) :
    substituteChars store (a ++ r) = a ++ substituteChars store r := by
  induction a with
  | nil => rfl
  | cons c a ih =>
    have hc : c ≠ '$' := fun h => ha (h ▸ List.mem_cons_self c a)
    rw [List.cons_append, substituteChars_cons_ne store hc,
      ih (fun h => ha (List.mem_cons_of_mem c h))]
    rfl

/-- A placeholder over a bound name is replaced by the printed value, and the
scan continues after the closing brace, inside neither the replacement nor the
name. -/
theorem substituteChars_hit (store : VarStore) {a n b : List Char} {v : PyValue}
    (ha : '$' ∉ a) (hn : n ≠ []) (hnb : '}' ∉ n)
    (hv : get_variable store (String.mk n) = some v) :
    substituteChars store (a ++ '$' :: '{' :: (n ++ '}' :: b))
      = a ++ ((pyStr v).data ++ substituteChars store b) := by
  rw [substituteChars_append store ha,
    substituteChars_hit_head store (findClose_append hnb b) hn hv]

/-- A placeholder over an unbound name is kept verbatim, and the scan
continues after the closing brace. -/
theorem substituteChars_miss (store : VarStore) {a n b : List Char}
    (ha : '$' ∉ a) (hn : n ≠ []) (hnb : '}' ∉ n)
    (hv : get_variable store (String.mk n) = none) :
    substituteChars store (a ++ '$' :: '{' :: (n ++ '}' :: b))
      = a ++ ('$' :: '{' :: (n ++ '}' :: substituteChars store b)) := by
  rw [substituteChars_append store ha,
    substituteChars_miss_head store (findClose_append hnb b) hn hv]

/-- A scan whose matched placeholder names are all unbound leaves the text
unchanged: the pass keeps failed matches and plain text verbatim. -/
theorem substituteChars_id_of_dead (store : VarStore) :
    ∀ cs : List Char, (∀ n ∈ placeholderNames cs, get_variable store n = none) →
      substituteChars store cs = cs := by
  intro cs
  induction cs using substituteChars.induct store with
  | case1 => intro _; exact substituteChars_nil store
  | case2 rest name rest' hfc hemp ih =>
    intro hdead
    have hname : name = [] := by simpa using hemp
    subst hname
    rw [substituteChars_empty_head store hfc]
    rw [ih (by
      intro m hm
      apply hdead
      rw [placeholderNames_empty_head hfc]
      exact hm)]
  | case3 rest name rest' hfc hemp v hv ih =>
    intro hdead
    exfalso
    have hname : name ≠ [] := by simpa using hemp
    have hmem : String.mk name ∈ placeholderNames ('$' :: '{' :: rest) := by
      rw [placeholderNames_some_head hfc hname]
      exact List.mem_cons_self _ _
    rw [hdead (String.mk name) hmem] at hv
    cases hv
  | case4 rest name rest' hfc hemp hv ih =>
    intro hdead
    have hname : name ≠ [] := by simpa using hemp
    rw [substituteChars_miss_head store hfc hname hv]
    rw [ih (by
      intro m hm
      apply hdead
      rw [placeholderNames_some_head hfc hname]
      exact List.mem_cons_of_mem _ hm)]
    rw [← findClose_decomp hfc]
  | case5 rest hfc =>
    intro _
    rw [substituteChars_none_head store hfc]
  | case6 c rest hshape ih =>
    intro hdead
    rw [substituteChars_cons_shape store c rest hshape]
    rw [ih (by
      intro m hm
      apply hdead
      rw [placeholderNames_cons_shape c rest hshape]
      exact hm)]

theorem str_ext {s t : String} (h : s.data = t.data) : s = t := by
  cases s; cases t; exact congrArg String.mk h

theorem str_data_ne_nil {s : String} (h : s ≠ "") : s.data ≠ [] := by
  intro hd
  apply h
  cases s with
  | mk d =>
    simp only at hd
    rw [hd]

/-- C6: substitution replaces each placeholder over a bound name by the
printed value and keeps each placeholder over an unbound name verbatim, in one
non recursive left to right pass that continues after the closing brace and
never inside a replacement; and it is idempotent whenever the first pass
leaves no placeholder that resolves against the store, in particular whenever
the substituted values introduce no new resolvable placeholder. The function
is total, so substitution never raises. -/
theorem c6_substitute_variables (store : VarStore) (a b text n₁ n₂ : String)
    (v : PyValue)
    (ha : '$' ∉ a.data)
    (hn₁ : n₁ ≠ "") (hn₁b : '}' ∉ n₁.data)
    (hn₂ : n₂ ≠ "") (hn₂b : '}' ∉ n₂.data)
    (hv : get_variable store n₁ = some v)
    (hnv : get_variable store n₂ = none)
    (hdead : ∀ m ∈ placeholderNames (substitute_variables store text).data,
      get_variable store m = none) :
    substitute_variables store (a ++ "$\x7b" ++ n₁ ++ "\x7d" ++ b)
      = a ++ pyStr v ++ substitute_variables store b ∧
    substitute_variables store (a ++ "$\x7b" ++ n₂ ++ "\x7d" ++ b)
      = a ++ "$\x7b" ++ n₂ ++ "\x7d" ++ substitute_variables store b ∧
    substitute_variables store (substitute_variables store text)
      = substitute_variables store text := by
  refine ⟨?_, ?_, ?_⟩
  · have harg : (a ++ "$\x7b" ++ n₁ ++ "\x7d" ++ b).data
        = a.data ++ '$' :: '{' :: (n₁.data ++ '}' :: b.data) := by
      simp only [String.data_append, List.append_assoc]
      rfl
    refine str_ext ?_
    show substituteChars store (a ++ "$\x7b" ++ n₁ ++ "\x7d" ++ b).data
        = (a ++ pyStr v ++ substitute_variables store b).data
    rw [harg,
      @substituteChars_hit store a.data n₁.data b.data v ha (str_data_ne_nil hn₁) hn₁b hv]
    show a.data ++ ((pyStr v).data ++ substituteChars store b.data)
        = (a ++ pyStr v ++ substitute_variables store b).data
    simp only [String.data_append, List.append_assoc]
    rfl
  · have harg : (a ++ "$\x7b" ++ n₂ ++ "\x7d" ++ b).data
        = a.data ++ '$' :: '{' :: (n₂.data ++ '}' :: b.data) := by
      simp only [String.data_append, List.append_assoc]
      rfl
    refine str_ext ?_
    show substituteChars store (a ++ "$\x7b" ++ n₂ ++ "\x7d" ++ b).data
        = (a ++ "$\x7b" ++ n₂ ++ "\x7d" ++ substitute_variables store b).data
    rw [harg,
      @substituteChars_miss store a.data n₂.data b.data ha (str_data_ne_nil hn₂) hn₂b hnv]
    show a.data ++ ('$' :: '{' :: (n₂.data ++ '}' :: substituteChars store b.data))
        = (a ++ "$\x7b" ++ n₂ ++ "\x7d" ++ substitute_variables store b).data
    simp only [String.data_append, List.append_assoc]
    rfl
  · refine str_ext ?_
    show substituteChars store (substitute_variables store text).data
        = (substitute_variables store text).data
    exact substituteChars_id_of_dead store _ hdead

/-- A store binding n to the number 42. -/
def sampleStore : VarStore := [("n", ⟨.int 42, "number", ""⟩)]

/-- C6 witness: with n bound to 42, substituting Value: placeholder n gives
Value: 42; an unbound placeholder x passes through unchanged; and
resubstituting that output is a no-op. -/
theorem c6_substitute_variables_witness :
    substitute_variables sampleStore "Value: ${n}" = "Value: 42" ∧
    substitute_variables sampleStore "Hello ${x}" = "Hello ${x}" ∧
    substitute_variables sampleStore (substitute_variables sampleStore "Hello ${x}")
      = substitute_variables sampleStore "Hello ${x}" := by
  have hsub : substitute_variables sampleStore "Hello ${x}" = "Hello ${x}" := by
    simp [substitute_variables, substituteChars, findClose, get_variable, lookupStore]
  have hnames : placeholderNames ("Hello ${x}".data) = ["x"] := by
    simp [placeholderNames, findClose]
  have h := c6_substitute_variables sampleStore "Value: " "" "Hello ${x}" "n" "x"
    (.int 42) (by decide) (by decide) (by decide) (by decide) (by decide) rfl rfl
    (by rw [hsub]
        intro m hm
        rw [hnames] at hm
        simp only [List.mem_singleton] at hm
        subst hm
        rfl)
  have hempty : substitute_variables sampleStore "" = "" := by
    simp [substitute_variables, substituteChars]
  refine ⟨?_, ?_, ?_⟩
  · have h1 := h.1
    rw [show ("Value: " ++ "$\x7b" ++ "n" ++ "\x7d" ++ "" : String) = "Value: ${n}" by decide,
      hempty] at h1
    rw [h1]
    decide
  · have h2 := h.2.1
    rw [show ("Value: " ++ "$\x7b" ++ "x" ++ "\x7d" ++ "" : String) = "Value: ${x}" by decide,
      hempty] at h2
    exact hsub
  · exact h.2.2

end Patrol
